import Mathlib

/-!
# Verification of the Kinesis Stream handler (cloud-nuke)

Shallow embedding of `src/aws/resources/kinesis_stream.go`: discovery
(`getAll`) and concurrent bulk deletion (`nukeAll` / `deleteAsync`),
together with proofs of the specification claims.

Modelling conventions:
* Machine-level `error` values are modelled by the inductive `Err`; a
  delete call is a function `String → Option Err` (`none` = success).
* The SDK paginator is modelled as the list of its page results, each page
  an `Except PageErr (List String)` (the value `paginator.NextPage` yields).
* Goroutine nondeterminism is modelled by an explicit completion schedule
  `sched : List Nat`: the order, by task index, in which the spawned
  `deleteAsync` tasks complete and hence emit their report entries. The
  aggregation loop in `nukeAll` reads the per-task channels in index
  order, exactly as the source's `for _, errChan := range errChans` does.
-/

namespace KinesisStreams

/-- A page-fetch error from `paginator.NextPage` (opaque; `errors.WithStackTrace`
is modelled as the identity on the underlying error). -/
structure PageErr where
  msg : String
deriving DecidableEq, Repr

/-- Modelled from the spec: `config.ResourceValue` (the `config` package is not
part of the given source). The spec describes "an inclusion predicate over
resource name/tag values", so the value carries a name and optional tag
values. `getAll` populates only the name. -/
structure ResourceValue where
  name : Option String
  tags : Option (List (String × String))
deriving DecidableEq, Repr

/-- An error returned by a `DeleteStream` call. `opAborted` models the
`OperationAbortedException` raised on an eventual-consistency race; `other`
models any other provider error. -/
inductive Err where
  | opAborted
  | other (msg : String)
deriving DecidableEq, Repr

/-- A `report.Entry` as built by `deleteAsync`. -/
structure Entry where
  identifier : String
  resourceType : String
  error : Option Err
deriving DecidableEq, Repr

/-- The error value returned by `nukeAll`: either the batch-size guard error
`TooManyStreamsErr{}` or the `multierror` aggregate, whose field lists the
collected sub-errors in aggregation order. -/
inductive NukeError where
  | tooManyStreams
  | aggregate (errs : List Err)
deriving DecidableEq, Repr

/-- Embeds `getAll`: walk the paginator's pages; a page-fetch error aborts
with that error and no identifiers; otherwise each stream name passing
`shouldInclude` (called with only the `Name` field populated) is appended
to the accumulator. -/
def getAllAux (shouldInclude : ResourceValue → Bool) :
    List (Except PageErr (List String)) → List String →
    Except PageErr (List String)
  | [], allStreams => Except.ok allStreams
  | Except.error e :: _, _ => Except.error e
  | Except.ok page :: rest, allStreams =>
      getAllAux shouldInclude rest
        (allStreams ++ page.filter (fun stream =>
          shouldInclude { name := some stream, tags := none }))

/-- `KinesisStreams.getAll`: discovery over the given pages, starting from an
empty accumulator. -/
def getAll (pages : List (Except PageErr (List String)))
    (shouldInclude : ResourceValue → Bool) : Except PageErr (List String) :=
  getAllAux shouldInclude pages []

/-- One event of a `deleteAsync` task, in program order. -/
inductive TaskEvent where
  | callDelete (streamName : String)
  | recordEntry (e : Entry)
  | sendErr (err : Option Err)
deriving DecidableEq, Repr

/-- Embeds the body of `deleteAsync` as its sequence of events: issue the
`DeleteStream` call, record the report entry, then send the call's error on
the task's error channel. -/
def deleteAsyncTrace (delete : String → Option Err) (streamName : String) :
    List TaskEvent :=
  let err := delete streamName
  [TaskEvent.callDelete streamName,
   TaskEvent.recordEntry { identifier := streamName,
                           resourceType := "Kinesis Stream",
                           error := err },
   TaskEvent.sendErr err]

/-- The report entry `deleteAsync` records for a stream name. -/
def entryOf (delete : String → Option Err) (streamName : String) : Entry :=
  { identifier := streamName
    resourceType := "Kinesis Stream"
    error := delete streamName }

/-- Capacity of each task's error channel: `make(chan error, 1)`. -/
def channelCapacity : Nat := 1

/-- Number of channel sends a task trace performs. -/
def sendCount (trace : List TaskEvent) : Nat :=
  (trace.filter (fun ev => match ev with
    | TaskEvent.sendErr _ => true
    | _ => false)).length

/-- The observable outcome of one `nukeAll` invocation. -/
structure NukeOutcome where
  /-- Stream names for which a `DeleteStream` call was issued. -/
  deleteCalls : List String
  /-- Report-sink contents at return, in emission (completion) order. -/
  reportEntries : List Entry
  /-- Values received from the error channels by the aggregation loop,
  one per channel, in channel index order. -/
  received : List (Option Err)
  /-- Sub-errors of the `multierror` aggregate, in aggregation order. -/
  aggregated : List Err
  /-- The returned error: `none` models a `nil` return. -/
  result : Option NukeError
deriving DecidableEq, Repr

/-- Embeds `nukeAll`. If more than 100 identifiers are given, the guard
returns `TooManyStreamsErr{}` before any task is spawned. Otherwise one
`deleteAsync` task runs per identifier; tasks complete (and emit their
report entries) in the order given by `sched`; the aggregation loop then
receives exactly one value from each channel in index order and appends
every non-nil error to the `multierror` aggregate, returning `nil` iff the
aggregate is empty (`ErrorOrNil`). -/
def nukeAll (delete : String → Option Err) (sched : List Nat)
    (identifiers : List String) : NukeOutcome :=
  if identifiers.length > 100 then
    { deleteCalls := []
      reportEntries := []
      received := []
      aggregated := []
      result := some NukeError.tooManyStreams }
  else
    let entries := identifiers.map (entryOf delete)
    let chanValues := identifiers.map delete
    let errs := identifiers.filterMap delete
    { deleteCalls := identifiers
      reportEntries := sched.filterMap (fun i => entries[i]?)
      received := chanValues
      aggregated := errs
      result := if errs.isEmpty then none else some (NukeError.aggregate errs) }

/-- On pages that all fetched successfully, `getAllAux` returns the
accumulator followed by the filtered concatenation of the pages. -/
theorem getAllAux_ok (p : ResourceValue → Bool) (goodPages : List (List String)) :
    ∀ acc : List String,
      getAllAux p (goodPages.map Except.ok) acc =
        Except.ok (acc ++ goodPages.flatten.filter
          (fun stream => p { name := some stream, tags := none })) := by
  induction goodPages with
  | nil => intro acc; simp [getAllAux]
  | cons page rest ih =>
      intro acc
      simp only [List.map_cons, getAllAux, ih, List.flatten_cons,
        List.filter_append, List.append_assoc]

/-- `getAllAux` aborts with the first page-fetch error, whatever the
accumulator holds. -/
theorem getAllAux_error (p : ResourceValue → Bool) (good : List (List String))
    (e : PageErr) (rest : List (Except PageErr (List String))) :
    ∀ acc : List String,
      getAllAux p (good.map Except.ok ++ Except.error e :: rest) acc =
        Except.error e := by
  induction good with
  | nil => intro acc; rfl
  | cons page restGood ih =>
      intro acc
      simp only [List.map_cons, List.cons_append, getAllAux]
      exact ih _

/-- `getAllAux` only ever applies the predicate to values with `tags = none`,
so predicates agreeing on such values give the same result. -/
theorem getAllAux_congr (p q : ResourceValue → Bool)
    (h : ∀ n, p { name := some n, tags := none } = q { name := some n, tags := none }) :
    ∀ (pages : List (Except PageErr (List String))) (acc : List String),
      getAllAux p pages acc = getAllAux q pages acc := by
  intro pages
  induction pages with
  | nil => intro acc; rfl
  | cons pg rest ih =>
      intro acc
      cases pg with
      | error e => rfl
      | ok page =>
          simp only [getAllAux]
          rw [show (fun stream => p { name := some stream, tags := none })
              = (fun stream => q { name := some stream, tags := none }) from funext h]
          exact ih _

/-- C3: for every sequence of pages of stream names returned by the provider
and every inclusion predicate, `getAll` returns exactly the names for which
the predicate holds, in provider order: `getAll` equals
`filter(names, predicate)` on the concatenated pages. -/
theorem getAll_eq_filter (goodPages : List (List String))
    (shouldInclude : ResourceValue → Bool) :
    getAll (goodPages.map Except.ok) shouldInclude =
      Except.ok (goodPages.flatten.filter
        (fun stream => shouldInclude { name := some stream, tags := none })) := by
  simpa using getAllAux_ok shouldInclude goodPages []

/-- C4: if any page fetch fails, `getAll` propagates that error and returns
no identifiers at all: whatever was accumulated from earlier pages is
discarded, not returned to the caller. -/
theorem getAll_propagates_page_error (good : List (List String)) (e : PageErr)
    (rest : List (Except PageErr (List String)))
    (shouldInclude : ResourceValue → Bool) :
    getAll (good.map Except.ok ++ Except.error e :: rest) shouldInclude =
      Except.error e :=
  getAllAux_error shouldInclude good e rest []

/-- C10: discovery evaluates the inclusion predicate with only the stream
name populated and never supplies tag values, so any two predicates that
agree on tag-free values make `getAll` return the same identifiers:
tag-based rules cannot affect the result. -/
theorem getAll_never_sees_tags (pages : List (Except PageErr (List String)))
    (p q : ResourceValue → Bool)
    (h : ∀ n, p { name := some n, tags := none } = q { name := some n, tags := none }) :
    getAll pages p = getAll pages q :=
  getAllAux_congr p q h pages []

/-- Witness for C10 at a concrete page list and concrete predicates. -/
theorem getAll_never_sees_tags_witness :
    getAll [Except.ok ["x", "y"]] (fun _ => true)
      = getAll [Except.ok ["x", "y"]] (fun v => v.tags.isNone) :=
  getAll_never_sees_tags [Except.ok ["x", "y"]] (fun _ => true)
    (fun v => v.tags.isNone) (fun _ => rfl)

/-- Looking every index of `List.range l.length` up in `l` reproduces `l`. -/
theorem filterMap_getElem_range {α : Type} (l : List α) :
    (List.range l.length).filterMap (fun i => l[i]?) = l := by
  induction l with
  | nil => rfl
  | cons a t ih =>
      rw [List.length_cons, List.range_succ_eq_map, List.filterMap_cons,
        List.filterMap_map]
      simp only [List.getElem?_cons_zero, Function.comp_def,
        List.getElem?_cons_succ, ih]

/-- A `filterMap` collects as many elements as there are inputs on which the
function succeeds. -/
theorem length_filterMap_eq_length_filter {α β : Type} (f : α → Option β)
    (l : List α) :
    (l.filterMap f).length = (l.filter (fun a => (f a).isSome)).length := by
  induction l with
  | nil => rfl
  | cons a t ih =>
      cases h : f a <;>
        simp [List.filterMap_cons, List.filter_cons, h, ih]

/-- Below the guard, the report sink at return holds exactly the entries the
tasks record, one per identifier, permuted by the completion schedule. -/
theorem reportEntries_perm (delete : String → Option Err) (sched : List Nat)
    (identifiers : List String) (hlen : identifiers.length ≤ 100)
    (hsched : sched.Perm (List.range identifiers.length)) :
    (nukeAll delete sched identifiers).reportEntries.Perm
      (identifiers.map (entryOf delete)) := by
  have hguard : ¬ identifiers.length > 100 := Nat.not_lt.mpr hlen
  have h1 : (nukeAll delete sched identifiers).reportEntries
      = sched.filterMap (fun i => (identifiers.map (entryOf delete))[i]?) := by
    simp [nukeAll, hguard]
  rw [h1]
  have h2 := hsched.filterMap (fun i => (identifiers.map (entryOf delete))[i]?)
  have h3 : (List.range identifiers.length).filterMap
      (fun i => (identifiers.map (entryOf delete))[i]?)
      = identifiers.map (entryOf delete) := by
    have := filterMap_getElem_range (identifiers.map (entryOf delete))
    rwa [List.length_map] at this
  rwa [h3] at h2

/-- A concrete delete function failing only on stream "a". -/
def deleteFailA : String → Option Err :=
  fun s => if s = "a" then some (Err.other "boom") else none

/-- A concrete delete function failing on every stream, error tagged with
the stream name. -/
def deleteAllFail : String → Option Err :=
  fun s => some (Err.other s)

/-- A concrete delete function raising `OperationAbortedException` on "a". -/
def deleteOpAbortedA : String → Option Err :=
  fun s => if s = "a" then some Err.opAborted else none

/-- A concrete delete function that always succeeds. -/
def deleteNone : String → Option Err := fun _ => none

/-- C1: for every batch of at most 100 identifiers of which k delete calls
fail, the report sink receives exactly one entry per identifier (N entries
total, each with that identifier, type tag "Kinesis Stream", and the error
or none), the aggregated error has exactly k underlying causes, a delete
call is issued for every identifier, and when k = 0 (including the empty
batch) nukeAll returns nil. -/
theorem nukeAll_report_and_aggregate (delete : String → Option Err)
    (sched : List Nat) (identifiers : List String)
    (hlen : identifiers.length ≤ 100)
    (hsched : sched.Perm (List.range identifiers.length)) :
    (nukeAll delete sched identifiers).reportEntries.Perm
        (identifiers.map (entryOf delete))
    ∧ (nukeAll delete sched identifiers).reportEntries.length
        = identifiers.length
    ∧ (nukeAll delete sched identifiers).aggregated.length
        = (identifiers.filter (fun s => (delete s).isSome)).length
    ∧ (nukeAll delete sched identifiers).deleteCalls = identifiers
    ∧ ((identifiers.filter (fun s => (delete s).isSome)).length = 0 →
        (nukeAll delete sched identifiers).result = none) := by
  have hguard : ¬ identifiers.length > 100 := Nat.not_lt.mpr hlen
  have hperm := reportEntries_perm delete sched identifiers hlen hsched
  refine ⟨hperm, ?_, ?_, ?_, ?_⟩
  · rw [hperm.length_eq, List.length_map]
  · have : (nukeAll delete sched identifiers).aggregated
        = identifiers.filterMap delete := by simp [nukeAll, hguard]
    rw [this]
    exact length_filterMap_eq_length_filter delete identifiers
  · simp [nukeAll, hguard]
  · intro hk
    have hlen0 : (identifiers.filterMap delete).length = 0 := by
      rw [length_filterMap_eq_length_filter delete identifiers]
      exact hk
    have herr : identifiers.filterMap delete = [] :=
      List.eq_nil_of_length_eq_zero hlen0
    simp [nukeAll, hguard, herr]

/-- Witness for C1 at a concrete batch where one of two deletes fails. -/
theorem nukeAll_report_and_aggregate_witness :
    (nukeAll deleteFailA [1, 0] ["a", "b"]).reportEntries.Perm
        (["a", "b"].map (entryOf deleteFailA))
    ∧ (nukeAll deleteFailA [1, 0] ["a", "b"]).reportEntries.length
        = (["a", "b"] : List String).length
    ∧ (nukeAll deleteFailA [1, 0] ["a", "b"]).aggregated.length
        = ((["a", "b"] : List String).filter
            (fun s => (deleteFailA s).isSome)).length
    ∧ (nukeAll deleteFailA [1, 0] ["a", "b"]).deleteCalls = ["a", "b"]
    ∧ (((["a", "b"] : List String).filter
          (fun s => (deleteFailA s).isSome)).length = 0 →
        (nukeAll deleteFailA [1, 0] ["a", "b"]).result = none) :=
  nukeAll_report_and_aggregate deleteFailA [1, 0] ["a", "b"]
    (by decide) (by decide)

/-- C2: nukeAll returns `TooManyStreamsErr` iff more than 100 identifiers
are given; in that case zero delete calls are issued and zero report
entries are written; with exactly 100 identifiers the guard does not
fire. -/
theorem nukeAll_batch_guard (delete : String → Option Err) (sched : List Nat)
    (identifiers : List String) :
    ((nukeAll delete sched identifiers).result
        = some NukeError.tooManyStreams ↔ 100 < identifiers.length)
    ∧ (100 < identifiers.length →
        (nukeAll delete sched identifiers).deleteCalls = []
        ∧ (nukeAll delete sched identifiers).reportEntries = [])
    ∧ (identifiers.length = 100 →
        (nukeAll delete sched identifiers).result
          ≠ some NukeError.tooManyStreams) := by
  by_cases h : identifiers.length > 100
  · exact ⟨⟨fun _ => h, fun _ => by simp [nukeAll, h]⟩,
      fun _ => ⟨by simp [nukeAll, h], by simp [nukeAll, h]⟩,
      fun h100 => absurd (h100 ▸ h) (lt_irrefl 100)⟩
  · have hne : (nukeAll delete sched identifiers).result
        ≠ some NukeError.tooManyStreams := by
      by_cases he : (identifiers.filterMap delete).isEmpty <;>
        simp [nukeAll, h, he]
    exact ⟨⟨fun hres => absurd hres hne, fun hlt => absurd hlt h⟩,
      fun hlt => absurd hlt h, fun _ => hne⟩

/-- Witness for C2 at a concrete batch of 101 identifiers. -/
theorem nukeAll_batch_guard_witness :
    (nukeAll deleteNone [] (List.replicate 101 "s")).result
        = some NukeError.tooManyStreams
    ∧ (nukeAll deleteNone [] (List.replicate 101 "s")).deleteCalls = []
    ∧ (nukeAll deleteNone [] (List.replicate 101 "s")).reportEntries = [] :=
  ⟨(nukeAll_batch_guard deleteNone [] (List.replicate 101 "s")).1.mpr
      (by decide),
   ((nukeAll_batch_guard deleteNone [] (List.replicate 101 "s")).2.1
      (by decide)).1,
   ((nukeAll_batch_guard deleteNone [] (List.replicate 101 "s")).2.1
      (by decide)).2⟩

/-- C5: an `OperationAbortedException` from a delete call is not filtered
out: the aggregate is exactly the non-nil channel results (no error class
is removed), so the aborted error appears in the aggregated error like any
other per-identifier failure, despite the in-code comment. -/
theorem nukeAll_opAborted_not_filtered (delete : String → Option Err)
    (sched : List Nat) (identifiers : List String)
    (hlen : identifiers.length ≤ 100) (s : String) (hs : s ∈ identifiers)
    (hop : delete s = some Err.opAborted) :
    Err.opAborted ∈ (nukeAll delete sched identifiers).aggregated
    ∧ (nukeAll delete sched identifiers).aggregated
        = identifiers.filterMap delete := by
  have hguard : ¬ identifiers.length > 100 := Nat.not_lt.mpr hlen
  have hagg : (nukeAll delete sched identifiers).aggregated
      = identifiers.filterMap delete := by simp [nukeAll, hguard]
  exact ⟨hagg ▸ List.mem_filterMap.mpr ⟨s, hs, hop⟩, hagg⟩

/-- Witness for C5 at a concrete batch whose delete aborts on "a". -/
theorem nukeAll_opAborted_not_filtered_witness :
    Err.opAborted ∈ (nukeAll deleteOpAbortedA [0, 1] ["a", "b"]).aggregated
    ∧ (nukeAll deleteOpAbortedA [0, 1] ["a", "b"]).aggregated
        = (["a", "b"] : List String).filterMap deleteOpAbortedA :=
  nukeAll_opAborted_not_filtered deleteOpAbortedA [0, 1] ["a", "b"]
    (by decide) "a" (by decide) (by decide)

/-- C6 counterexample: with completion order b-then-a (schedule [1, 0]) the
report sink shows completion order ["b", "a"], yet the aggregated
sub-errors come out in input identifier order [a-error, b-error], not the
completion order [b-error, a-error] the claim requires. -/
theorem nukeAll_aggregate_order_counterexample :
    (nukeAll deleteAllFail [1, 0] ["a", "b"]).reportEntries.map
        Entry.identifier = ["b", "a"]
    ∧ (nukeAll deleteAllFail [1, 0] ["a", "b"]).aggregated
        = [Err.other "a", Err.other "b"]
    ∧ (nukeAll deleteAllFail [1, 0] ["a", "b"]).aggregated
        ≠ [Err.other "b", Err.other "a"] := by
  decide

/-- C6 amended: the order of sub-errors inside the aggregated error is
determined by the input identifier order (the aggregation loop reads the
per-identifier channels in index order) and is independent of the
completion schedule of the concurrent deletes; only the report sink's
emission order follows the completion schedule. -/
theorem nukeAll_aggregate_order_is_input_order (delete : String → Option Err)
    (sched sched' : List Nat) (identifiers : List String)
    (hlen : identifiers.length ≤ 100) :
    (nukeAll delete sched identifiers).aggregated
        = identifiers.filterMap delete
    ∧ (nukeAll delete sched identifiers).aggregated
        = (nukeAll delete sched' identifiers).aggregated := by
  have hguard : ¬ identifiers.length > 100 := Nat.not_lt.mpr hlen
  constructor <;> simp [nukeAll, hguard]

/-- Witness for the amended C6 at two different completion schedules. -/
theorem nukeAll_aggregate_order_is_input_order_witness :
    (nukeAll deleteAllFail [1, 0] ["a", "b"]).aggregated
        = (["a", "b"] : List String).filterMap deleteAllFail
    ∧ (nukeAll deleteAllFail [1, 0] ["a", "b"]).aggregated
        = (nukeAll deleteAllFail [0, 1] ["a", "b"]).aggregated :=
  nukeAll_aggregate_order_is_input_order deleteAllFail [1, 0] [0, 1]
    ["a", "b"] (by decide)

/-- C8: each spawned task sends exactly one value on its dedicated error
channel, within the channel's buffer capacity of 1 (so the send never
blocks), and the aggregation loop receives exactly one result per
identifier; hence nukeAll terminates whenever every DeleteStream call
returns. -/
theorem nukeAll_no_deadlock (delete : String → Option Err)
    (streamName : String) (sched : List Nat) (identifiers : List String)
    (hlen : identifiers.length ≤ 100) :
    sendCount (deleteAsyncTrace delete streamName) = 1
    ∧ sendCount (deleteAsyncTrace delete streamName) ≤ channelCapacity
    ∧ (nukeAll delete sched identifiers).received.length
        = identifiers.length := by
  have hguard : ¬ identifiers.length > 100 := Nat.not_lt.mpr hlen
  refine ⟨rfl, Nat.le_refl 1, ?_⟩
  simp [nukeAll, hguard]

/-- Witness for C8 at a concrete one-element batch. -/
theorem nukeAll_no_deadlock_witness :
    sendCount (deleteAsyncTrace deleteNone "a") = 1
    ∧ sendCount (deleteAsyncTrace deleteNone "a") ≤ channelCapacity
    ∧ (nukeAll deleteNone [0] ["a"]).received.length
        = (["a"] : List String).length :=
  nukeAll_no_deadlock deleteNone "a" [0] ["a"] (by decide)

/-- C9: inside each task the report entry is recorded strictly before the
send on the error channel, and nukeAll receives from every channel before
returning, so at return the sink already holds the entry of every
identifier in the batch. -/
theorem nukeAll_reports_recorded_before_return (delete : String → Option Err)
    (sched : List Nat) (identifiers : List String)
    (hlen : identifiers.length ≤ 100)
    (hsched : sched.Perm (List.range identifiers.length))
    (s : String) (hs : s ∈ identifiers) :
    (deleteAsyncTrace delete s).findIdx (fun ev => match ev with
        | TaskEvent.recordEntry _ => true
        | _ => false)
      < (deleteAsyncTrace delete s).findIdx (fun ev => match ev with
        | TaskEvent.sendErr _ => true
        | _ => false)
    ∧ entryOf delete s ∈ (nukeAll delete sched identifiers).reportEntries := by
  constructor
  · exact Nat.one_lt_two
  · have hperm := reportEntries_perm delete sched identifiers hlen hsched
    exact hperm.mem_iff.mpr (List.mem_map_of_mem (entryOf delete) hs)

/-- Witness for C9 at a concrete one-element batch. -/
theorem nukeAll_reports_recorded_before_return_witness :
    (deleteAsyncTrace deleteNone "a").findIdx (fun ev => match ev with
        | TaskEvent.recordEntry _ => true
        | _ => false)
      < (deleteAsyncTrace deleteNone "a").findIdx (fun ev => match ev with
        | TaskEvent.sendErr _ => true
        | _ => false)
    ∧ entryOf deleteNone "a" ∈ (nukeAll deleteNone [0] ["a"]).reportEntries :=
  nukeAll_reports_recorded_before_return deleteNone [0] ["a"]
    (by decide) (by decide) "a" (by decide)

end KinesisStreams
